import Mathlib

/-!
Verification of the zeek data dictionary browser.

The definitions below are a shallow embedding of the TypeScript source:

* `ZeekField`, `ZeekLogType` mirror the catalog record types from
  `src/data/zeekLogs.ts` as used by the components.
* `findPivotProperties`, `buildNodes`, `buildLinks` mirror the
  relationship resolver inside the `GraphVisualization` component
  (`PivotPanel.tsx`, lines 679-766).  The TypeScript non-null
  assertion on the target-log lookup (line 753) throws a `TypeError`
  at runtime when the lookup fails, because `findPivotProperties`
  dereferences `log2.fields` unconditionally; that failure is modelled
  by `Option`, with `none` standing for the thrown exception.
* `AppState`, `toggleNode`, `toggleAllInCategory`, `filteredLogs`
  mirror the state updaters and the sidebar filter in `App.tsx`.
  A JavaScript `Set<string>` is modelled as `Finset String` (claims
  depend only on membership, not on insertion order).
* `simulationConstructed`, `showsEmptyState` mirror the guards of the
  graph effect (`PivotPanel.tsx` lines 679-688) and the empty-state
  overlay (lines 1053-1065).
* `FieldDetails.getTypeColor` and `LogTypeCard.getTypeColor` mirror
  the two type-to-style maps (`FieldDetails.tsx` lines 10-25 and the
  unnamed card component, lines 23-38): a JavaScript object lookup
  `colors[type] || default` becomes an association-list lookup with a
  fallback.
-/

/-- JavaScript `String.prototype.includes` on lists of characters:
`isPrefixOfB pat s` holds when `pat` is a prefix of `s`. -/
def isPrefixOfB : List Char → List Char → Bool
  | [], _ => true
  | _ :: _, [] => false
  | a :: as, b :: bs => a == b && isPrefixOfB as bs

/-- `containsSeq pat s` holds when `pat` occurs contiguously inside `s`. -/
def containsSeq (pat : List Char) : List Char → Bool
  | [] => isPrefixOfB pat []
  | c :: rest => isPrefixOfB pat (c :: rest) || containsSeq pat rest

/-- Embedding of JavaScript `s.includes(pat)` (substring test). -/
def strIncludes (s pat : String) : Bool :=
  containsSeq pat.toList s.toList

/-- A field of a log-type schema (`ZeekField` in `zeekLogs.ts`). -/
structure ZeekField where
  name : String
  type : String
  description : String
  optional : Bool
deriving DecidableEq

/-- A log-type record of the catalog (`ZeekLogType` in `zeekLogs.ts`). -/
structure ZeekLogType where
  id : String
  name : String
  category : String
  color : String
  description : String
  fields : List ZeekField
  relatedLogs : List String
deriving DecidableEq

/-- `log1.fields.some(f => f.name === 'uid')` (PivotPanel.tsx line 695). -/
def hasUidField (log : ZeekLogType) : Bool :=
  log.fields.any (fun f => f.name == "uid")

/-- `fields.some(f => f.name.includes('id.orig_h') || f.name.includes('id.resp_h'))`
(PivotPanel.tsx lines 700-701). -/
def hasIpFields (log : ZeekLogType) : Bool :=
  log.fields.any (fun f => strIncludes f.name "id.orig_h" || strIncludes f.name "id.resp_h")

/-- `fields.some(f => f.name.includes('hash') || f.name === 'md5' || f.name === 'sha1')`
(PivotPanel.tsx lines 707-708). -/
def hasHashFields (log : ZeekLogType) : Bool :=
  log.fields.any (fun f => strIncludes f.name "hash" || f.name == "md5" || f.name == "sha1")

/-- `fields.some(f => f.name === 'query' || f.name === 'host' || f.name === 'server_name')`
(PivotPanel.tsx lines 714-715). -/
def hasHostFields (log : ZeekLogType) : Bool :=
  log.fields.any (fun f => f.name == "query" || f.name == "host" || f.name == "server_name")

/-- `findPivotProperties` (PivotPanel.tsx lines 691-724): the sequence of
conditional pushes is rendered as a concatenation of conditional
singletons, in push order, with the unconditional `'ts'` push last. -/
def findPivotProperties (log1 log2 : ZeekLogType) : List String :=
  (if hasUidField log1 && hasUidField log2 then ["uid"] else []) ++
  (if hasIpFields log1 && hasIpFields log2 then ["IP"] else []) ++
  (if hasHashFields log1 && hasHashFields log2 then ["hash"] else []) ++
  (if hasHostFields log1 && hasHostFields log2 then ["hostname"] else []) ++
  ["ts"]

/-- A derived graph node (the `Node` interface of `GraphVisualization`,
without the mutable d3 simulation coordinates, which are set later by the
layout engine, not by the resolver). -/
structure Node where
  id : String
  name : String
  category : String
  color : String
  radius : Nat
  connections : Nat
deriving DecidableEq

/-- A derived graph edge (the `Link` interface of `GraphVisualization`);
`source`/`target` are the endpoint ids, as at construction time (d3 only
replaces them by node objects after the simulation starts). -/
structure Link where
  source : String
  target : String
  strength : Nat
  pivotProperties : List String
  connectionCount : Nat
deriving DecidableEq

/-- `data.filter(log => activeNodes.has(log.id))` (PivotPanel.tsx line 686). -/
def filteredData (catalog : List ZeekLogType) (active : Finset String) : List ZeekLogType :=
  catalog.filter (fun log => decide (log.id ∈ active))

/-- One node of the derived node list (PivotPanel.tsx lines 726-739). -/
def mkNode (active : Finset String) (log : ZeekLogType) : Node :=
  let connections := (log.relatedLogs.filter (fun relatedId => decide (relatedId ∈ active))).length
  { id := log.id
    name := log.name
    category := log.category
    color := log.color
    radius := max 20 (15 + connections * 5)
    connections := connections }

/-- The derived node list (PivotPanel.tsx lines 726-739). -/
def buildNodes (catalog : List ZeekLogType) (active : Finset String) : List Node :=
  (filteredData catalog active).map (mkNode active)

/-- The duplicate-edge test used by `links.find` (PivotPanel.tsx lines 746-749). -/
def linkMatches (link : Link) (a b : String) : Bool :=
  (link.source == a && link.target == b) || (link.source == b && link.target == a)

/-- The link pushed at PivotPanel.tsx lines 756-762. -/
def mkLink (s t : ZeekLogType) (logId relatedId : String) : Link :=
  { source := logId
    target := relatedId
    strength := 1
    pivotProperties := findPivotProperties s t
    connectionCount := (findPivotProperties s t).length }

/-- The body of the inner `forEach` (PivotPanel.tsx lines 744-765) for one
`relatedId`.  `none` models the `TypeError` thrown when the non-null
assertion on the target-log lookup (line 753) fails: `findPivotProperties`
evaluates `log2.fields.some` unconditionally, so an `undefined` target
always throws. -/
def pushLink (filtered : List ZeekLogType) (active : Finset String)
    (logId : String) (links : List Link) (relatedId : String) : Option (List Link) :=
  if decide (relatedId ∈ active) && logId != relatedId then
    if (links.find? (fun link => linkMatches link logId relatedId)).isSome then
      some links
    else
      match filtered.find? (fun l => l.id == logId),
            filtered.find? (fun l => l.id == relatedId) with
      | some s, some t => some (links ++ [mkLink s t logId relatedId])
      | _, _ => none
  else
    some links

/-- Threads a possibly-failed link list through one `relatedId`. -/
def processRelated (filtered : List ZeekLogType) (active : Finset String)
    (logId : String) (acc : Option (List Link)) (relatedId : String) : Option (List Link) :=
  acc.bind (fun links => pushLink filtered active logId links relatedId)

/-- `log.relatedLogs.forEach(...)` (PivotPanel.tsx line 744). -/
def processLog (filtered : List ZeekLogType) (active : Finset String)
    (acc : Option (List Link)) (log : ZeekLogType) : Option (List Link) :=
  log.relatedLogs.foldl (processRelated filtered active log.id) acc

/-- The full link construction (PivotPanel.tsx lines 742-766): `some links`
when every iteration succeeds, `none` when some iteration throws. -/
def buildLinks (catalog : List ZeekLogType) (active : Finset String) : Option (List Link) :=
  (filteredData catalog active).foldl
    (processLog (filteredData catalog active) active) (some [])

/-- Number of links of a list matching the unordered pair `{a, b}`. -/
def pairCount (links : List Link) (a b : String) : Nat :=
  (links.filter (fun link => linkMatches link a b)).length

/-- The UI state touched by the claims: the active-node set and the
selected node (`App.tsx` lines 14-15). -/
structure AppState where
  activeNodes : Finset String
  selectedNode : Option String
deriving DecidableEq

/-- `toggleNode` (`App.tsx` lines 47-60). -/
def toggleNode (s : AppState) (nodeId : String) : AppState :=
  if nodeId ∈ s.activeNodes then
    { activeNodes := s.activeNodes.erase nodeId
      selectedNode := if s.selectedNode = some nodeId then none else s.selectedNode }
  else
    { s with activeNodes := insert nodeId s.activeNodes }

/-- `toggleAllInCategory` (`App.tsx` lines 74-90).  The `forEach` over the
category's logs becomes a fold; the comparison `selectedNode === log.id`
reads the captured (pre-call) `selectedNode`, exactly as the closure does
in the source. -/
def toggleAllInCategory (catalog : List ZeekLogType) (s : AppState)
    (categoryId : String) (enable : Bool) : AppState :=
  let categoryLogs := catalog.filter (fun log => log.category == categoryId)
  categoryLogs.foldl
    (fun st log =>
      if enable then
        { st with activeNodes := insert log.id st.activeNodes }
      else
        { activeNodes := st.activeNodes.erase log.id
          selectedNode := if s.selectedNode = some log.id then none else st.selectedNode })
    s

/-- The guards of the graph effect (`PivotPanel.tsx` lines 679-688): the
force simulation at line 769 is constructed only when the svg ref is
mounted, both measured dimensions are non-zero, and the filtered node
data is non-empty. -/
def simulationConstructed (svgPresent : Bool) (width height : Nat)
    (catalog : List ZeekLogType) (active : Finset String) : Bool :=
  svgPresent && width != 0 && height != 0 && !(filteredData catalog active).isEmpty

/-- The empty-state overlay condition `activeNodes.size === 0`
(`PivotPanel.tsx` lines 1053-1065). -/
def showsEmptyState (active : Finset String) : Bool :=
  active.card == 0

/-- The property names an object literal inherits from
`Object.prototype`.  A JavaScript lookup `colors[type]` with one of these
names does not yield `undefined`: it returns the inherited member (a
function, or the prototype object itself for `__proto__`), which is
truthy, so a `|| default` fallback after such a lookup does not fire. -/
def objectProtoKeys : List String :=
  ["constructor", "hasOwnProperty", "isPrototypeOf", "propertyIsEnumerable",
   "toLocaleString", "toString", "valueOf", "__defineGetter__",
   "__defineSetter__", "__lookupGetter__", "__lookupSetter__", "__proto__"]

/-- The value of the JavaScript expression `colors[type] || default`:
either a style string (an own value of the object literal, or the
default), or an inherited `Object.prototype` member, which is truthy but
is not a style string. -/
inductive JsValue where
  | str (s : String)
  | inheritedFn (name : String)
deriving DecidableEq

namespace FieldDetails

/-- The `colors` object literal of `getTypeColor` (`FieldDetails.tsx`
lines 11-23), as an association list in declaration order. -/
def typeColors : List (String × String) :=
  [("time", "text-blue-400 bg-blue-400/10 border-blue-400/20"),
   ("string", "text-green-400 bg-green-400/10 border-green-400/20"),
   ("addr", "text-purple-400 bg-purple-400/10 border-purple-400/20"),
   ("port", "text-yellow-400 bg-yellow-400/10 border-yellow-400/20"),
   ("count", "text-orange-400 bg-orange-400/10 border-orange-400/20"),
   ("bool", "text-pink-400 bg-pink-400/10 border-pink-400/20"),
   ("interval", "text-cyan-400 bg-cyan-400/10 border-cyan-400/20"),
   ("enum", "text-indigo-400 bg-indigo-400/10 border-indigo-400/20"),
   ("vector", "text-red-400 bg-red-400/10 border-red-400/20"),
   ("set", "text-emerald-400 bg-emerald-400/10 border-emerald-400/20"),
   ("record", "text-violet-400 bg-violet-400/10 border-violet-400/20")]

/-- `getTypeColor` (`FieldDetails.tsx` lines 10-25): the object lookup
`colors[type] || defaultStyle` checks the literal's own keys first, then
the prototype chain (an inherited `Object.prototype` member is truthy and
is returned as-is), and only an `undefined` result - a key that is
neither an own key nor inherited - falls back to the default style. -/
def getTypeColor (type : String) : JsValue :=
  match typeColors.find? (fun p => p.1 == type) with
  | some p => .str p.2
  | none =>
    if type ∈ objectProtoKeys then .inheritedFn type
    else .str "text-slate-400 bg-slate-400/10 border-slate-400/20"

end FieldDetails

namespace LogTypeCard

/-- The `colors` object literal of the card component's `getTypeColor`
(unnamed source file, lines 24-36). -/
def typeColors : List (String × String) :=
  [("time", "text-blue-400"),
   ("string", "text-green-400"),
   ("addr", "text-purple-400"),
   ("port", "text-yellow-400"),
   ("count", "text-orange-400"),
   ("bool", "text-pink-400"),
   ("interval", "text-cyan-400"),
   ("enum", "text-indigo-400"),
   ("vector", "text-red-400"),
   ("set", "text-emerald-400"),
   ("record", "text-violet-400")]

/-- `getTypeColor` of the card component (unnamed source file,
lines 23-38), with the same `colors[type] || default` semantics: own
keys, then inherited `Object.prototype` members, then the default. -/
def getTypeColor (type : String) : JsValue :=
  match typeColors.find? (fun p => p.1 == type) with
  | some p => .str p.2
  | none =>
    if type ∈ objectProtoKeys then .inheritedFn type
    else .str "text-slate-400"

end LogTypeCard

/-- The sidebar filter predicate (`App.tsx` lines 24-42): category test
first, then (for a truthy, i.e. non-empty, query) the lowercased
substring tests on name, description and fields. -/
def logPasses (selectedCategories : Finset String) (searchQuery : String)
    (log : ZeekLogType) : Bool :=
  if !(decide (log.category ∈ selectedCategories)) then
    false
  else if searchQuery != "" then
    if !(strIncludes log.name.toLower searchQuery.toLower) &&
        !(strIncludes log.description.toLower searchQuery.toLower) &&
        !(log.fields.any (fun field =>
          strIncludes field.name.toLower searchQuery.toLower ||
          strIncludes field.description.toLower searchQuery.toLower)) then
      false
    else true
  else
    true

/-- `filteredLogs` (`App.tsx` lines 23-43). -/
def filteredLogs (catalog : List ZeekLogType) (selectedCategories : Finset String)
    (searchQuery : String) : List ZeekLogType :=
  catalog.filter (logPasses selectedCategories searchQuery)

/-! Concrete fixtures used by witnesses and counterexamples.  They follow
the shape of the catalog entries in `zeekLogs.ts` (conn / dns / http). -/

/-- The `ts` field shared by the catalog's log types. -/
def fldTs : ZeekField :=
  { name := "ts", type := "time", description := "Timestamp", optional := false }

/-- The `uid` connection-identifier field. -/
def fldUid : ZeekField :=
  { name := "uid", type := "string", description := "Unique connection id", optional := false }

/-- The originator-address field. -/
def fldOrigH : ZeekField :=
  { name := "id.orig_h", type := "addr", description := "Originator address", optional := false }

/-- The dns `query` field. -/
def fldQuery : ZeekField :=
  { name := "query", type := "string", description := "Domain name queried", optional := true }

/-- A `conn`-shaped log type. -/
def logConn : ZeekLogType :=
  { id := "conn", name := "Connection", category := "Network", color := "#3b82f6"
    description := "Network connections", fields := [fldTs, fldUid, fldOrigH]
    relatedLogs := ["dns", "http"] }

/-- A `dns`-shaped log type. -/
def logDns : ZeekLogType :=
  { id := "dns", name := "DNS", category := "Network", color := "#10b981"
    description := "DNS queries", fields := [fldTs, fldUid, fldOrigH, fldQuery]
    relatedLogs := ["conn"] }

/-- An `http`-shaped log type. -/
def logHttp : ZeekLogType :=
  { id := "http", name := "HTTP", category := "Network", color := "#f59e0b"
    description := "HTTP requests", fields := [fldTs, fldUid]
    relatedLogs := ["conn"] }

/-- A three-entry catalog. -/
def wCatalog : List ZeekLogType := [logConn, logDns, logHttp]

/-- All three ids active. -/
def wActive : Finset String := {"conn", "dns", "http"}

/-- The links the resolver produces on `wCatalog`/`wActive`. -/
def wLinks : List Link :=
  [mkLink logConn logDns "conn" "dns", mkLink logConn logHttp "conn" "http"]

example : buildLinks wCatalog wActive = some wLinks := by decide
example : buildNodes wCatalog wActive =
    [mkNode wActive logConn, mkNode wActive logDns, mkNode wActive logHttp] := by decide
example : (mkNode wActive logConn).radius = 25 := by decide

/-- A catalog whose single entry has a dangling `relatedLogs` id. -/
def ghostCatalog : List ZeekLogType :=
  [{ id := "conn", name := "Connection", category := "Network", color := "#3b82f6"
     description := "Network connections", fields := [fldTs, fldUid]
     relatedLogs := ["ghost"] }]

/-- An active set containing the dangling id itself. -/
def ghostActive : Finset String := {"conn", "ghost"}

example : buildLinks ghostCatalog ghostActive = none := by decide

/-! Pivot-tag membership characterizations for `findPivotProperties`. -/

/-- The `ts` tag is pushed unconditionally. -/
theorem findPivot_ts (l1 l2 : ZeekLogType) : "ts" ∈ findPivotProperties l1 l2 := by
  unfold findPivotProperties
  cases hasUidField l1 && hasUidField l2 <;>
  cases hasIpFields l1 && hasIpFields l2 <;>
  cases hasHashFields l1 && hasHashFields l2 <;>
  cases hasHostFields l1 && hasHostFields l2 <;>
    simp

/-- The `uid` tag appears iff both endpoints have a field named `uid`. -/
theorem findPivot_uid (l1 l2 : ZeekLogType) :
    "uid" ∈ findPivotProperties l1 l2 ↔ (hasUidField l1 = true ∧ hasUidField l2 = true) := by
  unfold findPivotProperties
  cases h1 : hasUidField l1 <;> cases h2 : hasUidField l2 <;>
  cases hasIpFields l1 && hasIpFields l2 <;>
  cases hasHashFields l1 && hasHashFields l2 <;>
  cases hasHostFields l1 && hasHostFields l2 <;>
    simp

/-- The `IP` tag appears iff both endpoints have an `id.orig_h`/`id.resp_h` field. -/
theorem findPivot_ip (l1 l2 : ZeekLogType) :
    "IP" ∈ findPivotProperties l1 l2 ↔ (hasIpFields l1 = true ∧ hasIpFields l2 = true) := by
  unfold findPivotProperties
  cases hasUidField l1 && hasUidField l2 <;>
  cases h1 : hasIpFields l1 <;> cases h2 : hasIpFields l2 <;>
  cases hasHashFields l1 && hasHashFields l2 <;>
  cases hasHostFields l1 && hasHostFields l2 <;>
    simp

/-- The `hash` tag appears iff both endpoints have a hash-like field. -/
theorem findPivot_hash (l1 l2 : ZeekLogType) :
    "hash" ∈ findPivotProperties l1 l2 ↔ (hasHashFields l1 = true ∧ hasHashFields l2 = true) := by
  unfold findPivotProperties
  cases hasUidField l1 && hasUidField l2 <;>
  cases hasIpFields l1 && hasIpFields l2 <;>
  cases h1 : hasHashFields l1 <;> cases h2 : hasHashFields l2 <;>
  cases hasHostFields l1 && hasHostFields l2 <;>
    simp

/-- The `hostname` tag appears iff both endpoints have a hostname-like field. -/
theorem findPivot_host (l1 l2 : ZeekLogType) :
    "hostname" ∈ findPivotProperties l1 l2 ↔ (hasHostFields l1 = true ∧ hasHostFields l2 = true) := by
  unfold findPivotProperties
  cases hasUidField l1 && hasUidField l2 <;>
  cases hasIpFields l1 && hasIpFields l2 <;>
  cases hasHashFields l1 && hasHashFields l2 <;>
  cases h1 : hasHostFields l1 <;> cases h2 : hasHostFields l2 <;>
    simp

/-! Structural lemmas about the link-construction fold. -/

/-- A failed iteration poisons the rest of the inner fold. -/
theorem foldl_processRelated_none (filtered : List ZeekLogType) (active : Finset String)
    (logId : String) (rids : List String) :
    List.foldl (processRelated filtered active logId) none rids = none := by
  induction rids with
  | nil => rfl
  | cons r rs ih => simpa [processRelated] using ih

/-- A failed iteration poisons the rest of the outer fold. -/
theorem foldl_processLog_none (filtered : List ZeekLogType) (active : Finset String)
    (logs : List ZeekLogType) :
    List.foldl (processLog filtered active) none logs = none := by
  induction logs with
  | nil => rfl
  | cons l ls ih =>
    rw [List.foldl_cons, processLog, foldl_processRelated_none]
    exact ih

/-- Case analysis of a successful `pushLink`: the list is unchanged, or a
single link built from the two successful catalog lookups is appended
after a failed duplicate search. -/
theorem pushLink_eq_append (filtered : List ZeekLogType) (active : Finset String)
    (logId : String) (links : List Link) (relatedId : String) (links' : List Link)
    (h : pushLink filtered active logId links relatedId = some links') :
    links' = links ∨
    ∃ s t, links' = links ++ [mkLink s t logId relatedId] ∧
      filtered.find? (fun l => l.id == logId) = some s ∧
      filtered.find? (fun l => l.id == relatedId) = some t ∧
      links.find? (fun link => linkMatches link logId relatedId) = none := by
  unfold pushLink at h
  split at h
  · split at h
    · left
      exact (Option.some.inj h).symm
    · next hdup =>
      split at h
      · next s t hs ht =>
        right
        exact ⟨s, t, (Option.some.inj h).symm, hs, ht, Option.not_isSome_iff_eq_none.mp hdup⟩
      · exact absurd h (by simp)
  · left
    exact (Option.some.inj h).symm

/-! Counting links per unordered pair. -/

/-- The duplicate test is symmetric in the pair. -/
theorem linkMatches_symm (link : Link) (a b : String) :
    linkMatches link a b = linkMatches link b a := by
  simp [linkMatches, Bool.or_comm]

/-- When a freshly built link matches a pair, the pair is the link's own. -/
theorem linkMatches_mk (s t : ZeekLogType) (i r a b : String) :
    linkMatches (mkLink s t i r) a b = true ↔ (i = a ∧ r = b) ∨ (i = b ∧ r = a) := by
  simp [linkMatches, mkLink]

/-- Matching the swapped pair counts the same links. -/
theorem pairCount_swap (links : List Link) (a b : String) :
    pairCount links a b = pairCount links b a := by
  unfold pairCount
  congr 1
  apply List.filter_congr
  intro link _
  exact linkMatches_symm link a b

/-- Appending one link adds its own match contribution. -/
theorem pairCount_append_one (links : List Link) (lnk : Link) (a b : String) :
    pairCount (links ++ [lnk]) a b =
      pairCount links a b + (if linkMatches lnk a b then 1 else 0) := by
  unfold pairCount
  rw [List.filter_append, List.length_append]
  congr 1
  split <;> simp_all

/-- A list only extends when the same fold is resumed, so counts never drop. -/
theorem pairCount_le_append (links tail : List Link) (a b : String) :
    pairCount links a b ≤ pairCount (links ++ tail) a b := by
  unfold pairCount
  rw [List.filter_append, List.length_append]
  exact Nat.le_add_right _ _

/-- An exhausted duplicate search means a zero count. -/
theorem pairCount_eq_zero_of_find?_none (links : List Link) (i r : String)
    (h : links.find? (fun link => linkMatches link i r) = none) :
    pairCount links i r = 0 := by
  unfold pairCount
  rw [List.length_eq_zero, List.filter_eq_nil_iff]
  intro link hl
  simpa using List.find?_eq_none.mp h link hl

/-- A successful duplicate search means a positive count. -/
theorem pairCount_pos_of_find?_some (links : List Link) (i r : String) (lnk : Link)
    (h : links.find? (fun link => linkMatches link i r) = some lnk) :
    1 ≤ pairCount links i r := by
  have hm : lnk ∈ links := List.mem_of_find?_eq_some h
  have hp := List.find?_some h
  exact List.length_pos_of_mem (List.mem_filter.mpr ⟨hm, hp⟩)

/-! The resolver invariant: at most one link per unordered pair, and every
link is well formed (its pivot metadata comes from `findPivotProperties`
applied to the two looked-up endpoint log types). -/

/-- Well-formedness of one produced link. -/
def LinkWF (filtered : List ZeekLogType) (link : Link) : Prop :=
  ∃ s t, filtered.find? (fun l => l.id == link.source) = some s ∧
    filtered.find? (fun l => l.id == link.target) = some t ∧
    link.pivotProperties = findPivotProperties s t ∧
    link.connectionCount = (findPivotProperties s t).length

/-- Invariant carried through the link-construction fold. -/
def LinksInv (filtered : List ZeekLogType) (links : List Link) : Prop :=
  (∀ a b, pairCount links a b ≤ 1) ∧ ∀ link ∈ links, LinkWF filtered link

/-- One successful `pushLink` preserves the invariant and only appends. -/
theorem pushLink_inv (filtered : List ZeekLogType) (active : Finset String)
    (logId : String) (links : List Link) (relatedId : String) (links' : List Link)
    (h : pushLink filtered active logId links relatedId = some links')
    (hinv : LinksInv filtered links) :
    LinksInv filtered links' ∧ ∃ tail, links' = links ++ tail := by
  rcases pushLink_eq_append filtered active logId links relatedId links' h with
    rfl | ⟨s, t, rfl, hs, ht, hdup⟩
  · exact ⟨hinv, [], by simp⟩
  · refine ⟨⟨?_, ?_⟩, [mkLink s t logId relatedId], rfl⟩
    · intro a b
      rw [pairCount_append_one]
      by_cases hm : linkMatches (mkLink s t logId relatedId) a b = true
      · rw [if_pos hm]
        have hz : pairCount links a b = 0 := by
          rcases (linkMatches_mk s t logId relatedId a b).mp hm with ⟨rfl, rfl⟩ | ⟨rfl, rfl⟩
          · exact pairCount_eq_zero_of_find?_none links logId relatedId hdup
          · rw [pairCount_swap]
            exact pairCount_eq_zero_of_find?_none links logId relatedId hdup
        omega
      · rw [if_neg hm]
        have := hinv.1 a b
        omega
    · intro link hl
      rcases List.mem_append.mp hl with hl | hl
      · exact hinv.2 link hl
      · rw [List.mem_singleton.mp hl]
        exact ⟨s, t, hs, ht, rfl, rfl⟩

/-- The inner fold preserves the invariant and only appends. -/
theorem foldl_processRelated_inv (filtered : List ZeekLogType) (active : Finset String)
    (logId : String) (rids : List String) :
    ∀ (links links' : List Link), LinksInv filtered links →
    List.foldl (processRelated filtered active logId) (some links) rids = some links' →
    LinksInv filtered links' ∧ ∃ tail, links' = links ++ tail := by
  induction rids with
  | nil =>
    intro links links' hinv h
    cases h
    exact ⟨hinv, [], by simp⟩
  | cons r rs ih =>
    intro links links' hinv h
    rw [List.foldl_cons] at h
    cases hp : pushLink filtered active logId links r with
    | none =>
      rw [show processRelated filtered active logId (some links) r = none by
            simp [processRelated, hp],
          foldl_processRelated_none] at h
      cases h
    | some links1 =>
      rw [show processRelated filtered active logId (some links) r = some links1 by
            simp [processRelated, hp]] at h
      obtain ⟨hinv1, t1, rfl⟩ := pushLink_inv filtered active logId links r links1 hp hinv
      obtain ⟨hinv', t2, rfl⟩ := ih (links ++ t1) links' hinv1 h
      exact ⟨hinv', t1 ++ t2, by simp⟩

/-- The outer fold preserves the invariant and only appends. -/
theorem foldl_processLog_inv (filtered : List ZeekLogType) (active : Finset String)
    (logs : List ZeekLogType) :
    ∀ (links links' : List Link), LinksInv filtered links →
    List.foldl (processLog filtered active) (some links) logs = some links' →
    LinksInv filtered links' ∧ ∃ tail, links' = links ++ tail := by
  induction logs with
  | nil =>
    intro links links' hinv h
    cases h
    exact ⟨hinv, [], by simp⟩
  | cons l ls ih =>
    intro links links' hinv h
    rw [List.foldl_cons] at h
    cases hp : processLog filtered active (some links) l with
    | none =>
      rw [hp, foldl_processLog_none] at h
      cases h
    | some links1 =>
      rw [hp] at h
      obtain ⟨hinv1, t1, rfl⟩ :=
        foldl_processRelated_inv filtered active l.id l.relatedLogs links links1 hinv hp
      obtain ⟨hinv', t2, rfl⟩ := ih (links ++ t1) links' hinv1 h
      exact ⟨hinv', t1 ++ t2, by simp⟩

/-- Every successful link construction satisfies the invariant. -/
theorem buildLinks_inv (catalog : List ZeekLogType) (active : Finset String)
    (links : List Link) (h : buildLinks catalog active = some links) :
    LinksInv (filteredData catalog active) links := by
  have h0 : LinksInv (filteredData catalog active) [] := by
    constructor
    · intro a b
      simp [pairCount]
    · intro link hl
      cases hl
  exact (foldl_processLog_inv (filteredData catalog active) active
    (filteredData catalog active) [] links h0 h).1

/-! Existence of the edge for a declared, active, resolvable relation. -/

/-- The inner fold only appends. -/
theorem foldl_processRelated_extends (filtered : List ZeekLogType) (active : Finset String)
    (logId : String) (rids : List String) :
    ∀ (links links' : List Link),
    List.foldl (processRelated filtered active logId) (some links) rids = some links' →
    ∃ tail, links' = links ++ tail := by
  induction rids with
  | nil =>
    intro links links' h
    cases h
    exact ⟨[], by simp⟩
  | cons r rs ih =>
    intro links links' h
    rw [List.foldl_cons] at h
    cases hp : pushLink filtered active logId links r with
    | none =>
      rw [show processRelated filtered active logId (some links) r = none by
            simp [processRelated, hp],
          foldl_processRelated_none] at h
      cases h
    | some links1 =>
      rw [show processRelated filtered active logId (some links) r = some links1 by
            simp [processRelated, hp]] at h
      obtain ⟨t2, rfl⟩ := ih links1 links' h
      rcases pushLink_eq_append filtered active logId links r links1 hp with
        rfl | ⟨s, t, rfl, -, -, -⟩
      · exact ⟨t2, rfl⟩
      · exact ⟨[mkLink s t logId r] ++ t2, by simp⟩

/-- The outer fold only appends. -/
theorem foldl_processLog_extends (filtered : List ZeekLogType) (active : Finset String)
    (logs : List ZeekLogType) :
    ∀ (links links' : List Link),
    List.foldl (processLog filtered active) (some links) logs = some links' →
    ∃ tail, links' = links ++ tail := by
  induction logs with
  | nil =>
    intro links links' h
    cases h
    exact ⟨[], by simp⟩
  | cons l ls ih =>
    intro links links' h
    rw [List.foldl_cons] at h
    cases hp : processLog filtered active (some links) l with
    | none =>
      rw [hp, foldl_processLog_none] at h
      cases h
    | some links1 =>
      rw [hp] at h
      obtain ⟨t1, rfl⟩ :=
        foldl_processRelated_extends filtered active l.id l.relatedLogs links links1 hp
      obtain ⟨t2, rfl⟩ := ih (links ++ t1) links' h
      exact ⟨t1 ++ t2, by simp⟩

/-- A successful `pushLink` for an active, distinct related id leaves at
least one matching link (either the duplicate found or the pushed one). -/
theorem pushLink_creates (filtered : List ZeekLogType) (active : Finset String)
    (logId : String) (links : List Link) (relatedId : String) (links' : List Link)
    (h : pushLink filtered active logId links relatedId = some links')
    (hact : relatedId ∈ active) (hne : logId ≠ relatedId) :
    1 ≤ pairCount links' logId relatedId := by
  have hcond : (decide (relatedId ∈ active) && logId != relatedId) = true := by
    simp [hact, hne]
  unfold pushLink at h
  rw [if_pos hcond] at h
  cases hf : links.find? (fun link => linkMatches link logId relatedId) with
  | some lnk =>
    rw [hf] at h
    simp only [Option.isSome_some, if_true] at h
    cases h
    exact pairCount_pos_of_find?_some links logId relatedId lnk hf
  | none =>
    rw [hf] at h
    simp only [Option.isSome_none, Bool.false_eq_true, if_false] at h
    cases hs : filtered.find? (fun l => l.id == logId) with
    | none => rw [hs] at h; cases h
    | some s =>
      cases ht : filtered.find? (fun l => l.id == relatedId) with
      | none => rw [hs, ht] at h; cases h
      | some t =>
        rw [hs, ht] at h
        cases h
        rw [pairCount_append_one]
        have : linkMatches (mkLink s t logId relatedId) logId relatedId = true := by
          simp [linkMatches, mkLink]
        rw [if_pos this]
        omega

/-- Once the inner fold meets an active, distinct related id, the result
contains a matching link. -/
theorem foldl_processRelated_creates (filtered : List ZeekLogType) (active : Finset String)
    (logId relatedId : String) (hact : relatedId ∈ active) (hne : logId ≠ relatedId)
    (rids : List String) :
    ∀ (links links' : List Link), relatedId ∈ rids →
    List.foldl (processRelated filtered active logId) (some links) rids = some links' →
    1 ≤ pairCount links' logId relatedId := by
  induction rids with
  | nil =>
    intro links links' hmem
    cases hmem
  | cons r rs ih =>
    intro links links' hmem h
    rw [List.foldl_cons] at h
    cases hp : pushLink filtered active logId links r with
    | none =>
      rw [show processRelated filtered active logId (some links) r = none by
            simp [processRelated, hp],
          foldl_processRelated_none] at h
      cases h
    | some links1 =>
      rw [show processRelated filtered active logId (some links) r = some links1 by
            simp [processRelated, hp]] at h
      rcases List.mem_cons.mp hmem with rfl | hmem'
      · have h1 := pushLink_creates filtered active logId links relatedId links1 hp hact hne
        obtain ⟨tail, rfl⟩ :=
          foldl_processRelated_extends filtered active logId rs links1 links' h
        exact le_trans h1 (pairCount_le_append links1 tail logId relatedId)
      · exact ih links1 links' hmem' h

/-- Once the outer fold meets a log type declaring an active, distinct
relation, the result contains a matching link. -/
theorem foldl_processLog_creates (filtered : List ZeekLogType) (active : Finset String)
    (A : ZeekLogType) (relatedId : String) (hact : relatedId ∈ active)
    (hne : A.id ≠ relatedId) (hrel : relatedId ∈ A.relatedLogs)
    (logs : List ZeekLogType) :
    ∀ (links links' : List Link), A ∈ logs →
    List.foldl (processLog filtered active) (some links) logs = some links' →
    1 ≤ pairCount links' A.id relatedId := by
  induction logs with
  | nil =>
    intro links links' hmem
    cases hmem
  | cons l ls ih =>
    intro links links' hmem h
    rw [List.foldl_cons] at h
    cases hp : processLog filtered active (some links) l with
    | none =>
      rw [hp, foldl_processLog_none] at h
      cases h
    | some links1 =>
      rw [hp] at h
      rcases List.mem_cons.mp hmem with rfl | hmem'
      · have h1 := foldl_processRelated_creates filtered active A.id relatedId hact hne
          A.relatedLogs links links1 hrel hp
        obtain ⟨tail, rfl⟩ := foldl_processLog_extends filtered active ls links1 links' h
        exact le_trans h1 (pairCount_le_append links1 tail A.id relatedId)
      · exact ih links1 links' hmem' h

/-- C2: on every edge the resolver produces, the `ts` pivot tag is present,
and each of the `uid`, `IP`, `hash`, `hostname` tags is a member of the
edge's `pivotProperties` iff both endpoint log types (as looked up by the
resolver) satisfy that tag's field-matching predicate. -/
theorem c2_pivot_tags (catalog : List ZeekLogType) (active : Finset String)
    (links : List Link) (h : buildLinks catalog active = some links)
    (link : Link) (hmem : link ∈ links) :
    "ts" ∈ link.pivotProperties ∧
    ∃ s t,
      (filteredData catalog active).find? (fun l => l.id == link.source) = some s ∧
      (filteredData catalog active).find? (fun l => l.id == link.target) = some t ∧
      link.pivotProperties = findPivotProperties s t ∧
      ("uid" ∈ link.pivotProperties ↔ (hasUidField s = true ∧ hasUidField t = true)) ∧
      ("IP" ∈ link.pivotProperties ↔ (hasIpFields s = true ∧ hasIpFields t = true)) ∧
      ("hash" ∈ link.pivotProperties ↔ (hasHashFields s = true ∧ hasHashFields t = true)) ∧
      ("hostname" ∈ link.pivotProperties ↔ (hasHostFields s = true ∧ hasHostFields t = true)) := by
  obtain ⟨s, t, hs, ht, hpiv, -⟩ := (buildLinks_inv catalog active links h).2 link hmem
  rw [hpiv]
  exact ⟨findPivot_ts s t, s, t, hs, ht, rfl,
    findPivot_uid s t, findPivot_ip s t, findPivot_hash s t, findPivot_host s t⟩

/-- C2 witness: the theorem applied to the concrete conn-dns edge. -/
theorem c2_pivot_tags_witness :
    "ts" ∈ (mkLink logConn logDns "conn" "dns").pivotProperties ∧
    ∃ s t,
      (filteredData wCatalog wActive).find?
        (fun l => l.id == (mkLink logConn logDns "conn" "dns").source) = some s ∧
      (filteredData wCatalog wActive).find?
        (fun l => l.id == (mkLink logConn logDns "conn" "dns").target) = some t ∧
      (mkLink logConn logDns "conn" "dns").pivotProperties = findPivotProperties s t ∧
      ("uid" ∈ (mkLink logConn logDns "conn" "dns").pivotProperties ↔
        (hasUidField s = true ∧ hasUidField t = true)) ∧
      ("IP" ∈ (mkLink logConn logDns "conn" "dns").pivotProperties ↔
        (hasIpFields s = true ∧ hasIpFields t = true)) ∧
      ("hash" ∈ (mkLink logConn logDns "conn" "dns").pivotProperties ↔
        (hasHashFields s = true ∧ hasHashFields t = true)) ∧
      ("hostname" ∈ (mkLink logConn logDns "conn" "dns").pivotProperties ↔
        (hasHostFields s = true ∧ hasHostFields t = true)) :=
  c2_pivot_tags wCatalog wActive wLinks (by decide)
    (mkLink logConn logDns "conn" "dns") (by simp [wLinks])

/-- C4: the resolver's edge list holds at most one edge per unordered pair
of ids, and exactly one for a pair of distinct active catalog entries that
list each other in `relatedLogs`. -/
theorem c4_edge_dedup (catalog : List ZeekLogType) (active : Finset String)
    (links : List Link) (h : buildLinks catalog active = some links) :
    (∀ a b, pairCount links a b ≤ 1) ∧
    (∀ A B, A ∈ catalog → B ∈ catalog → A.id ∈ active → B.id ∈ active →
      A.id ≠ B.id → B.id ∈ A.relatedLogs → A.id ∈ B.relatedLogs →
      pairCount links A.id B.id = 1) := by
  have hinv := buildLinks_inv catalog active links h
  refine ⟨hinv.1, ?_⟩
  intro A B hA hB hAa hBa hne hAB hBA
  have hAfil : A ∈ filteredData catalog active :=
    List.mem_filter.mpr ⟨hA, decide_eq_true hAa⟩
  have hge := foldl_processLog_creates (filteredData catalog active) active A B.id
    hBa hne hAB (filteredData catalog active) [] links hAfil h
  exact le_antisymm (hinv.1 A.id B.id) hge

/-- C4 witness: exactly one conn-dns edge on the concrete catalog, and the
at-most-one bound instantiated on another pair. -/
theorem c4_edge_dedup_witness :
    pairCount wLinks "conn" "dns" = 1 ∧ pairCount wLinks "dns" "http" ≤ 1 :=
  ⟨(c4_edge_dedup wCatalog wActive wLinks (by decide)).2 logConn logDns
      (by simp [wCatalog]) (by simp [wCatalog]) (by decide) (by decide)
      (by decide) (by decide) (by decide),
    (c4_edge_dedup wCatalog wActive wLinks (by decide)).1 "dns" "http"⟩

/-! Success of the resolver when every active id resolves in the catalog. -/

/-- `pushLink` cannot fail when the source id resolves and every active id
resolves in the filtered list. -/
theorem pushLink_isSome (filtered : List ZeekLogType) (active : Finset String)
    (logId : String) (links : List Link) (relatedId : String)
    (hsrc : ∃ x ∈ filtered, x.id = logId)
    (hcov : ∀ id ∈ active, ∃ x ∈ filtered, x.id = id) :
    (pushLink filtered active logId links relatedId).isSome = true := by
  unfold pushLink
  split
  · split
    · simp
    · next hcond _ =>
      have hact : relatedId ∈ active := by
        simp only [Bool.and_eq_true, decide_eq_true_eq] at hcond
        exact hcond.1
      obtain ⟨x, hx, rfl⟩ := hsrc
      obtain ⟨y, hy, rfl⟩ := hcov _ hact
      have hs0 : (List.find? (fun l => l.id == x.id) filtered).isSome = true :=
        List.find?_isSome.mpr ⟨x, hx, by simp⟩
      have ht0 : (List.find? (fun l => l.id == y.id) filtered).isSome = true :=
        List.find?_isSome.mpr ⟨y, hy, by simp⟩
      obtain ⟨s, hs⟩ := Option.isSome_iff_exists.mp hs0
      obtain ⟨t, ht⟩ := Option.isSome_iff_exists.mp ht0
      rw [hs, ht]
      simp
  · simp

/-- The inner fold cannot fail under the same coverage assumptions. -/
theorem foldl_processRelated_isSome (filtered : List ZeekLogType) (active : Finset String)
    (logId : String) (hsrc : ∃ x ∈ filtered, x.id = logId)
    (hcov : ∀ id ∈ active, ∃ x ∈ filtered, x.id = id) (rids : List String) :
    ∀ links : List Link,
    (List.foldl (processRelated filtered active logId) (some links) rids).isSome = true := by
  induction rids with
  | nil =>
    intro links
    simp
  | cons r rs ih =>
    intro links
    rw [List.foldl_cons]
    obtain ⟨links1, h1⟩ := Option.isSome_iff_exists.mp
      (pushLink_isSome filtered active logId links r hsrc hcov)
    rw [show processRelated filtered active logId (some links) r = some links1 by
          simp [processRelated, h1]]
    exact ih links1

/-- The outer fold cannot fail when it walks members of the filtered list
and every active id resolves there. -/
theorem foldl_processLog_isSome (filtered : List ZeekLogType) (active : Finset String)
    (hcov : ∀ id ∈ active, ∃ x ∈ filtered, x.id = id) (logs : List ZeekLogType) :
    ∀ links : List Link, (∀ log ∈ logs, log ∈ filtered) →
    (List.foldl (processLog filtered active) (some links) logs).isSome = true := by
  induction logs with
  | nil =>
    intro links _
    simp
  | cons l ls ih =>
    intro links hlogs
    rw [List.foldl_cons]
    have hsrc : ∃ x ∈ filtered, x.id = l.id := ⟨l, hlogs l (by simp), rfl⟩
    obtain ⟨links1, h1⟩ := Option.isSome_iff_exists.mp
      (foldl_processRelated_isSome filtered active l.id hsrc hcov l.relatedLogs links)
    rw [show processLog filtered active (some links) l = some links1 from h1]
    exact ih links1 (fun log hlog => hlogs log (List.mem_cons_of_mem l hlog))

/-- C1 (amended): a `relatedLogs` entry whose id is not in the active set
is silently skipped without failing, and the resolver succeeds whenever
every active id is present in the catalog; a dangling id that is itself
active makes the resolver fail (see the counterexample). -/
theorem c1_dangling_tolerated (catalog : List ZeekLogType) (active : Finset String)
    (hcov : ∀ id ∈ active, ∃ log ∈ catalog, log.id = id) :
    (buildLinks catalog active).isSome = true ∧
    ∀ (filtered : List ZeekLogType) (logId : String) (links : List Link)
      (relatedId : String), relatedId ∉ active →
      pushLink filtered active logId links relatedId = some links := by
  constructor
  · have hcov' : ∀ id ∈ active, ∃ x ∈ filteredData catalog active, x.id = id := by
      intro id hid
      obtain ⟨log, hlog, rfl⟩ := hcov id hid
      exact ⟨log, List.mem_filter.mpr ⟨hlog, decide_eq_true hid⟩, rfl⟩
    exact foldl_processLog_isSome (filteredData catalog active) active hcov'
      (filteredData catalog active) [] (fun log hlog => hlog)
  · intro filtered logId links relatedId hnot
    simp [pushLink, hnot]

/-- C1 witness: the amended theorem at the concrete catalog. -/
theorem c1_dangling_tolerated_witness :
    (buildLinks wCatalog wActive).isSome = true ∧
    ∀ (filtered : List ZeekLogType) (logId : String) (links : List Link)
      (relatedId : String), relatedId ∉ wActive →
      pushLink filtered wActive logId links relatedId = some links :=
  c1_dangling_tolerated wCatalog wActive (by decide)

/-- C1 counterexample: with a catalog entry whose `relatedLogs` id `ghost`
is absent from the catalog but present in the active set, the resolver
fails (the TypeScript code throws on the failed non-null lookup), refuting
the claim that edge construction never fails on dangling entries. -/
theorem c1_dangling_counterexample : buildLinks ghostCatalog ghostActive = none := by
  decide

/-- C3: every derived graph node comes from an active catalog entry, its
`connections` field counts that entry's `relatedLogs` ids lying in the
active set, and its radius is `max 20 (15 + 5k)`; in particular k = 0 and
k = 1 give 20, k = 2 gives 25, k = 5 gives 40. -/
theorem c3_radius_formula (catalog : List ZeekLogType) (active : Finset String)
    (n : Node) (hn : n ∈ buildNodes catalog active) :
    (∃ log, log ∈ catalog ∧ log.id ∈ active ∧ n = mkNode active log ∧
      n.connections =
        (log.relatedLogs.filter (fun relatedId => decide (relatedId ∈ active))).length) ∧
    n.radius = max 20 (15 + 5 * n.connections) ∧
    (n.connections = 0 → n.radius = 20) ∧
    (n.connections = 1 → n.radius = 20) ∧
    (n.connections = 2 → n.radius = 25) ∧
    (n.connections = 5 → n.radius = 40) := by
  obtain ⟨log, hlog, rfl⟩ := List.mem_map.mp hn
  have hfil := List.mem_filter.mp hlog
  have hrad : (mkNode active log).radius =
      max 20 (15 + 5 * (mkNode active log).connections) := by
    simp [mkNode, Nat.mul_comm]
  refine ⟨⟨log, hfil.1, by simpa using hfil.2, rfl, rfl⟩, hrad, ?_, ?_, ?_, ?_⟩ <;>
    intro hc <;> rw [hrad, hc] <;> decide

/-- C3 witness: the conn node of the concrete catalog (two active
relations, radius 25). -/
theorem c3_radius_formula_witness :
    (∃ log, log ∈ wCatalog ∧ log.id ∈ wActive ∧ mkNode wActive logConn = mkNode wActive log ∧
      (mkNode wActive logConn).connections =
        (log.relatedLogs.filter (fun relatedId => decide (relatedId ∈ wActive))).length) ∧
    (mkNode wActive logConn).radius = max 20 (15 + 5 * (mkNode wActive logConn).connections) ∧
    ((mkNode wActive logConn).connections = 0 → (mkNode wActive logConn).radius = 20) ∧
    ((mkNode wActive logConn).connections = 1 → (mkNode wActive logConn).radius = 20) ∧
    ((mkNode wActive logConn).connections = 2 → (mkNode wActive logConn).radius = 25) ∧
    ((mkNode wActive logConn).connections = 5 → (mkNode wActive logConn).radius = 40) :=
  c3_radius_formula wCatalog wActive (mkNode wActive logConn) (by decide)

/-- One step of the disabling branch of `toggleAllInCategory` (the
`forEach` body with `enable = false`); `sel0` is the captured pre-call
`selectedNode`. -/
def disableStep (sel0 : Option String) (st : AppState) (log : ZeekLogType) : AppState :=
  { activeNodes := st.activeNodes.erase log.id
    selectedNode := if sel0 = some log.id then none else st.selectedNode }

/-- The disable-all action is the fold of `disableStep` over the
category's logs. -/
theorem toggleAll_disable_eq (catalog : List ZeekLogType) (s : AppState)
    (categoryId : String) :
    toggleAllInCategory catalog s categoryId false =
      (catalog.filter (fun log => log.category == categoryId)).foldl
        (disableStep s.selectedNode) s :=
  rfl

/-- A cleared selection stays cleared along the disabling fold. -/
theorem foldl_disableStep_none (sel0 : Option String) (logs : List ZeekLogType) :
    ∀ st : AppState, st.selectedNode = none →
    (logs.foldl (disableStep sel0) st).selectedNode = none := by
  induction logs with
  | nil =>
    intro st h
    exact h
  | cons l ls ih =>
    intro st h
    rw [List.foldl_cons]
    refine ih _ ?_
    simp only [disableStep]
    split <;> simp [h]

/-- Disabling a list that contains the captured selected id clears the
selection. -/
theorem foldl_disableStep_clears (sel0 : Option String) (logs : List ZeekLogType) :
    ∀ st : AppState, (∃ log ∈ logs, sel0 = some log.id) →
    (logs.foldl (disableStep sel0) st).selectedNode = none := by
  induction logs with
  | nil =>
    intro st h
    obtain ⟨log, hlog, -⟩ := h
    cases hlog
  | cons l ls ih =>
    intro st h
    rw [List.foldl_cons]
    obtain ⟨log, hlog, hsel⟩ := h
    rcases List.mem_cons.mp hlog with rfl | hmem
    · refine foldl_disableStep_none sel0 ls _ ?_
      simp [disableStep, hsel]
    · exact ih _ ⟨log, hmem, hsel⟩

/-- C5: toggling off a node that is both active and selected clears the
selection, and disabling all of a category clears the selection whenever
the selected node belongs (per the catalog) to that category. -/
theorem c5_selection_cleared :
    (∀ (s : AppState) (nodeId : String), nodeId ∈ s.activeNodes →
      s.selectedNode = some nodeId → (toggleNode s nodeId).selectedNode = none) ∧
    (∀ (catalog : List ZeekLogType) (s : AppState) (categoryId sel : String),
      s.selectedNode = some sel →
      (∃ log ∈ catalog, log.id = sel ∧ log.category = categoryId) →
      (toggleAllInCategory catalog s categoryId false).selectedNode = none) := by
  constructor
  · intro s nodeId hact hsel
    simp [toggleNode, hact, hsel]
  · intro catalog s categoryId sel hsel hlog
    obtain ⟨log, hlog, hid, hcat⟩ := hlog
    rw [toggleAll_disable_eq]
    refine foldl_disableStep_clears s.selectedNode _ s ⟨log, ?_, by rw [hsel, hid]⟩
    exact List.mem_filter.mpr ⟨hlog, by simp [hcat]⟩

/-- C5 witness: the theorem applied to a concrete state in which `conn` is
active and selected, for both the node toggle and the category toggle. -/
theorem c5_selection_cleared_witness :
    (toggleNode ⟨wActive, some "conn"⟩ "conn").selectedNode = none ∧
    (toggleAllInCategory wCatalog ⟨wActive, some "conn"⟩ "Network" false).selectedNode = none :=
  ⟨c5_selection_cleared.1 ⟨wActive, some "conn"⟩ "conn" (by decide) rfl,
    c5_selection_cleared.2 wCatalog ⟨wActive, some "conn"⟩ "Network" "conn" rfl
      ⟨logConn, by simp [wCatalog], by decide, by decide⟩⟩

/-- Membership in the active set after the disabling fold. -/
theorem foldl_disableStep_active (sel0 : Option String) (logs : List ZeekLogType) :
    ∀ (st : AppState) (x : String),
    (x ∈ (logs.foldl (disableStep sel0) st).activeNodes ↔
      x ∈ st.activeNodes ∧ ∀ log ∈ logs, x ≠ log.id) := by
  induction logs with
  | nil =>
    intro st x
    simp
  | cons l ls ih =>
    intro st x
    rw [List.foldl_cons, ih]
    simp only [disableStep, Finset.mem_erase, List.mem_cons]
    constructor
    · rintro ⟨⟨hxl, hx⟩, hall⟩
      exact ⟨hx, fun log hlog => by
        rcases hlog with rfl | hlog
        · exact hxl
        · exact hall log hlog⟩
    · rintro ⟨hx, hall⟩
      exact ⟨⟨hall l (Or.inl rfl), hx⟩, fun log hlog => hall log (Or.inr hlog)⟩

/-- C6: disabling all log types of a category twice leaves the active set
where the first call put it. -/
theorem c6_disable_idempotent (catalog : List ZeekLogType) (s : AppState)
    (categoryId : String) :
    (toggleAllInCategory catalog
        (toggleAllInCategory catalog s categoryId false) categoryId false).activeNodes =
      (toggleAllInCategory catalog s categoryId false).activeNodes := by
  rw [toggleAll_disable_eq, toggleAll_disable_eq]
  ext x
  rw [foldl_disableStep_active, foldl_disableStep_active]
  tauto

/-- C7: with an empty active set the graph effect never reaches the
simulation construction, and the explicit empty-state overlay is shown. -/
theorem c7_empty_active (svgPresent : Bool) (width height : Nat)
    (catalog : List ZeekLogType) (active : Finset String) (h : active = ∅) :
    simulationConstructed svgPresent width height catalog active = false ∧
    showsEmptyState active = true := by
  subst h
  constructor
  · have hfil : filteredData catalog (∅ : Finset String) = [] := by
      simp [filteredData]
    simp [simulationConstructed, hfil]
  · simp [showsEmptyState]

/-- C7 witness: concrete viewport and catalog, empty active set. -/
theorem c7_empty_active_witness :
    simulationConstructed true 800 600 wCatalog (∅ : Finset String) = false ∧
    showsEmptyState (∅ : Finset String) = true :=
  c7_empty_active true 800 600 wCatalog ∅ rfl

/-- C8: a zero measured width or height stops the graph effect before the
simulation is constructed, so no simulation runs with center coordinates
derived from a zero-sized viewport. -/
theorem c8_zero_viewport (svgPresent : Bool) (width height : Nat)
    (catalog : List ZeekLogType) (active : Finset String)
    (h : width = 0 ∨ height = 0) :
    simulationConstructed svgPresent width height catalog active = false := by
  rcases h with rfl | rfl <;> simp [simulationConstructed]

/-- C8 witness: zero width on the concrete catalog. -/
theorem c8_zero_viewport_witness :
    simulationConstructed true 0 600 wCatalog wActive = false :=
  c8_zero_viewport true 0 600 wCatalog wActive (Or.inl rfl)

/-- C9 counterexample: for the unknown type string `toString` the object
lookup hits the inherited `Object.prototype.toString`, a truthy function,
so both components return that inherited member and not the default slate
style, refuting the claim that every unknown value maps to the default. -/
theorem c9_unknown_type_counterexample :
    FieldDetails.getTypeColor "toString" = JsValue.inheritedFn "toString" ∧
    LogTypeCard.getTypeColor "toString" = JsValue.inheritedFn "toString" ∧
    FieldDetails.getTypeColor "toString" ≠
      JsValue.str "text-slate-400 bg-slate-400/10 border-slate-400/20" ∧
    LogTypeCard.getTypeColor "toString" ≠ JsValue.str "text-slate-400" := by
  decide

/-- C9 (amended): both type-to-style maps are total, and a type string
outside the known enumeration maps to the default slate style when it is
not an `Object.prototype` property name; when it is one (`toString`,
`constructor`, `__proto__`, ...), the lookup returns the inherited truthy
member instead of the default. -/
theorem c9_unknown_type_defaults (type : String)
    (h : type ∉ ["time", "string", "addr", "port", "count", "bool", "interval",
      "enum", "vector", "set", "record"]) :
    (type ∉ objectProtoKeys →
      FieldDetails.getTypeColor type =
        JsValue.str "text-slate-400 bg-slate-400/10 border-slate-400/20" ∧
      LogTypeCard.getTypeColor type = JsValue.str "text-slate-400") ∧
    (type ∈ objectProtoKeys →
      FieldDetails.getTypeColor type = JsValue.inheritedFn type ∧
      LogTypeCard.getTypeColor type = JsValue.inheritedFn type) := by
  simp only [List.mem_cons, List.not_mem_nil, or_false, not_or] at h
  obtain ⟨h1, h2, h3, h4, h5, h6, h7, h8, h9, h10, h11⟩ := h
  have e1 : ("time" == type) = false := by simpa using Ne.symm h1
  have e2 : ("string" == type) = false := by simpa using Ne.symm h2
  have e3 : ("addr" == type) = false := by simpa using Ne.symm h3
  have e4 : ("port" == type) = false := by simpa using Ne.symm h4
  have e5 : ("count" == type) = false := by simpa using Ne.symm h5
  have e6 : ("bool" == type) = false := by simpa using Ne.symm h6
  have e7 : ("interval" == type) = false := by simpa using Ne.symm h7
  have e8 : ("enum" == type) = false := by simpa using Ne.symm h8
  have e9 : ("vector" == type) = false := by simpa using Ne.symm h9
  have e10 : ("set" == type) = false := by simpa using Ne.symm h10
  have e11 : ("record" == type) = false := by simpa using Ne.symm h11
  have hf1 : FieldDetails.typeColors.find? (fun p => p.1 == type) = none := by
    rw [List.find?_eq_none]
    intro p hp
    simp only [FieldDetails.typeColors, List.mem_cons, List.not_mem_nil, or_false] at hp
    rcases hp with rfl | rfl | rfl | rfl | rfl | rfl | rfl | rfl | rfl | rfl | rfl <;>
      simp [e1, e2, e3, e4, e5, e6, e7, e8, e9, e10, e11]
  have hf2 : LogTypeCard.typeColors.find? (fun p => p.1 == type) = none := by
    rw [List.find?_eq_none]
    intro p hp
    simp only [LogTypeCard.typeColors, List.mem_cons, List.not_mem_nil, or_false] at hp
    rcases hp with rfl | rfl | rfl | rfl | rfl | rfl | rfl | rfl | rfl | rfl | rfl <;>
      simp [e1, e2, e3, e4, e5, e6, e7, e8, e9, e10, e11]
  constructor
  · intro hp
    constructor
    · unfold FieldDetails.getTypeColor
      rw [hf1]
      simp [hp]
    · unfold LogTypeCard.getTypeColor
      rw [hf2]
      simp [hp]
  · intro hp
    constructor
    · unfold FieldDetails.getTypeColor
      rw [hf1]
      simp [hp]
    · unfold LogTypeCard.getTypeColor
      rw [hf2]
      simp [hp]

/-- C9 witness: the amended theorem at the unknown, non-inherited type
string `double` (default fires) - the inherited branch is instantiated
vacuously there. -/
theorem c9_unknown_type_defaults_witness :
    ("double" ∉ objectProtoKeys →
      FieldDetails.getTypeColor "double" =
        JsValue.str "text-slate-400 bg-slate-400/10 border-slate-400/20" ∧
      LogTypeCard.getTypeColor "double" = JsValue.str "text-slate-400") ∧
    ("double" ∈ objectProtoKeys →
      FieldDetails.getTypeColor "double" = JsValue.inheritedFn "double" ∧
      LogTypeCard.getTypeColor "double" = JsValue.inheritedFn "double") :=
  c9_unknown_type_defaults "double" (by decide)

/-- C10: a log type appears in the sidebar's filtered list iff it is a
catalog entry whose category is selected and, when the search query is
non-empty, the lowercased query occurs in its lowercased name or
description or in the lowercased name or description of one of its
fields. -/
theorem c10_sidebar_filter (catalog : List ZeekLogType) (cats : Finset String)
    (q : String) (log : ZeekLogType) :
    log ∈ filteredLogs catalog cats q ↔
      log ∈ catalog ∧ log.category ∈ cats ∧
      (q ≠ "" →
        strIncludes log.name.toLower q.toLower = true ∨
        strIncludes log.description.toLower q.toLower = true ∨
        ∃ field ∈ log.fields,
          strIncludes field.name.toLower q.toLower = true ∨
          strIncludes field.description.toLower q.toLower = true) := by
  unfold filteredLogs
  rw [List.mem_filter, and_congr_right_iff]
  intro _
  unfold logPasses
  by_cases hc : log.category ∈ cats
  · rw [decide_eq_true hc]
    simp only [Bool.not_true]
    rw [if_neg Bool.false_ne_true]
    simp only [hc, true_and]
    by_cases hq : q = ""
    · subst hq
      simp
    · have hq' : (q != "") = true := by simpa using hq
      rw [hq', if_pos rfl]
      have key : ∀ a b c : Bool,
          ((if !a && !b && !c then false else true) = true) ↔
            (a = true ∨ b = true ∨ c = true) := by
        intro a b c
        cases a <;> cases b <;> cases c <;> simp
      rw [key]
      simp only [List.any_eq_true, Bool.or_eq_true]
      constructor
      · intro hx _
        exact hx
      · intro hx
        exact hx hq
  · rw [decide_eq_false hc]
    simp [hc]
